import Mathlib

/-!
# Verification of the `bb` HTTP transport layer (`pkg/httpx`)

A shallow embedding of the Go package `httpx` (file `client.go`): the
request-URL builder (`NewRequest` / `NewMultipartRequest` path joining), the
retry loop of `Do` / `DoWithHeaders` with exponential backoff, the ETag
response cache (`storeCache` / `cachedETag` / `applyCachedResponse`), the
rate-limit header reader (`updateRateLimit`) and the error decoder
(`decodeError`).

Modelling conventions:
* Go `string` / `[]byte` values are Lean `String`s; byte-level operations of
  the Go standard library (`strings.HasPrefix`, `strings.TrimSuffix`, ...)
  are modelled on the character list of the string, which agrees with the
  byte-level behaviour on well-formed UTF-8 input.
* Go machine integers (`int`, `int64`, `time.Duration`) are Lean `Int`s;
  where the Go code can overflow (the backoff multiplication) the wrap-around
  to the signed 64-bit range is made explicit with `wrap64`.
* `url.Parse` on a path such as `/foo?bar=1` is modelled by splitting the
  string at the first `?` into path and raw query (`splitQuery`); the model
  does not perform percent-decoding, so it is faithful for escape-free paths.
-/

namespace Httpx

/-- Go `strings.HasPrefix`: `pre` is a prefix of `s`. -/
def hasPrefix (s pre : String) : Bool :=
  pre.toList.isPrefixOf s.toList

/-- Go `strings.TrimSpace`: drop leading and trailing whitespace. -/
def trimSpace (s : String) : String :=
  String.mk (((s.toList.dropWhile Char.isWhitespace).reverse.dropWhile
    Char.isWhitespace).reverse)

/-- Go `strings.TrimSuffix s "/"`: remove one trailing `/` when present. -/
def trimSlashSuffix (s : String) : String :=
  if s.toList.getLast? = some '/' then String.mk s.toList.dropLast else s

/-- The path/raw-query split performed by Go's `url.Parse` on a relative
reference: the path is everything before the first `?`, the raw query is the
rest (kept verbatim). Fragments and percent-escapes are out of scope. -/
def splitQuery (s : String) : String × String :=
  (String.mk (s.toList.takeWhile (fun c => c ≠ '?')),
   String.mk ((s.toList.dropWhile (fun c => c ≠ '?')).drop 1))

/-- Result of the URL-building phase of `Client.NewRequest` /
`Client.NewMultipartRequest`: an error, an absolute URL taken verbatim, or a
(path, raw query) pair resolved against the base URL. -/
inductive ReqURL where
  | err : ReqURL
  | abs (u : String) : ReqURL
  | rel (path query : String) : ReqURL
  deriving DecidableEq, Repr

/-- The path-joining logic shared by `NewRequest` (client.go lines 248-293):
empty (after trimming) paths are rejected; absolute URLs are used as-is;
otherwise the path is given a leading `/` if missing, parsed into path and
query, and joined with the base URL's path, guarding against a duplicated
base-path prefix with a raw `strings.HasPrefix` test. -/
def newRequestURL (basePath path : String) : ReqURL :=
  if trimSpace path = "" then .err
  else if hasPrefix path "http://" || hasPrefix path "https://" then .abs path
  else
    let path := if hasPrefix path "/" then path else "/" ++ path
    let rel := splitQuery path
    let relPath := if rel.1 = "" then "/" else rel.1
    if hasPrefix path "/" && basePath ≠ "" then
      if hasPrefix relPath basePath then .rel relPath rel.2
      else .rel (trimSlashSuffix basePath ++ relPath) rel.2
    else
      -- `ResolveReference` with an absolute-path reference: the reference's
      -- path replaces the base path (reached only when basePath = "").
      .rel relPath rel.2

/-- The identical path-joining logic of `Client.NewMultipartRequest`
(client.go lines 719-758), transcribed separately since the Go code
duplicates it inline. -/
def newMultipartRequestURL (basePath path : String) : ReqURL :=
  if trimSpace path = "" then .err
  else if hasPrefix path "http://" || hasPrefix path "https://" then .abs path
  else
    let path := if hasPrefix path "/" then path else "/" ++ path
    let rel := splitQuery path
    let relPath := if rel.1 = "" then "/" else rel.1
    if hasPrefix path "/" && basePath ≠ "" then
      if hasPrefix relPath basePath then .rel relPath rel.2
      else .rel (trimSlashSuffix basePath ++ relPath) rel.2
    else
      .rel relPath rel.2

/- Helper lemmas about the list-level string operations. -/

theorem takeWhile_append_sat {p : Char → Bool} :
    ∀ (l₁ : List Char) (c : Char) (l₂ : List Char), (∀ a ∈ l₁, p a = true) → p c = false →
      (l₁ ++ c :: l₂).takeWhile p = l₁ := by
  intro l₁ c l₂ h hc
  induction l₁ with
  | nil => simp [List.takeWhile_cons, hc]
  | cons a t ih =>
    have ha : p a = true := h a (by simp)
    have ih' := ih (fun x hx => h x (by simp [hx]))
    simp [List.takeWhile_cons, ha, ih']

theorem dropWhile_append_sat {p : Char → Bool} :
    ∀ (l₁ : List Char) (c : Char) (l₂ : List Char), (∀ a ∈ l₁, p a = true) → p c = false →
      (l₁ ++ c :: l₂).dropWhile p = c :: l₂ := by
  intro l₁ c l₂ h hc
  induction l₁ with
  | nil => simp [List.dropWhile_cons, hc]
  | cons a t ih =>
    have ha : p a = true := h a (by simp)
    have ih' := ih (fun x hx => h x (by simp [hx]))
    simp [List.dropWhile_cons, ha, ih']

theorem splitQuery_append (pp q : String) (hq : ∀ c ∈ pp.toList, c ≠ '?') :
    splitQuery (pp ++ "?" ++ q) = (pp, q) := by
  have hdata : (pp ++ "?" ++ q).toList = pp.toList ++ '?' :: q.toList := by
    show (pp ++ "?" ++ q).data = pp.data ++ '?' :: q.data
    simp [String.data_append]
  have hsat : ∀ a ∈ pp.toList, (fun c => decide (c ≠ '?')) a = true := by
    intro a ha; simpa using hq a ha
  have hc : (fun c => decide (c ≠ '?')) '?' = false := by simp
  unfold splitQuery
  rw [hdata, takeWhile_append_sat pp.toList '?' q.toList hsat hc,
      dropWhile_append_sat pp.toList '?' q.toList hsat hc]
  rfl

theorem splitQuery_no_query (pp : String) (hq : ∀ c ∈ pp.toList, c ≠ '?') :
    splitQuery pp = (pp, "") := by
  have hsat : ∀ a ∈ pp.toList, (fun c => decide (c ≠ '?')) a = true := by
    intro a ha; simpa using hq a ha
  unfold splitQuery
  rw [List.takeWhile_eq_self_iff.mpr hsat, List.dropWhile_eq_nil_iff.mpr (by
    intro x hx; simpa using hq x hx)]
  rfl

theorem hasPrefix_iff (s pre : String) : hasPrefix s pre = true ↔ pre.toList <+: s.toList := by
  simp [hasPrefix, List.isPrefixOf_iff_prefix]

theorem ne_empty_of_hasPrefix_slash {s : String} (h : hasPrefix s "/" = true) : s ≠ "" := by
  intro he
  subst he
  simp [hasPrefix] at h

theorem hasPrefix_slash_append {s : String} (t : String) (h : hasPrefix s "/" = true) :
    hasPrefix (s ++ t) "/" = true := by
  rw [hasPrefix_iff] at h ⊢
  have hd : (s ++ t).toList = s.toList ++ t.toList := String.data_append s t
  rw [hd]
  exact h.trans (List.prefix_append _ _)

/-- Claim C1. Path joining in `NewRequest` against a base whose path is
`/2.0` (as for base URL `https://api.example.com/2.0`): `/2.0/x` resolves to
path `/2.0/x` (no duplication) and `/x` resolves to `/2.0/x`; in general a
relative path is given a leading `/` when missing, is joined after the base
path unless it already starts with it, and its query string is preserved
verbatim. -/
theorem claim_C1 :
    (newRequestURL "/2.0" "/2.0/x" = .rel "/2.0/x" "") ∧
    (newRequestURL "/2.0" "/x" = .rel "/2.0/x" "") ∧
    (∀ basePath p,
       hasPrefix p "/" = false →
       trimSpace p ≠ "" → trimSpace ("/" ++ p) ≠ "" →
       hasPrefix p "http://" = false → hasPrefix p "https://" = false →
       hasPrefix ("/" ++ p) "http://" = false → hasPrefix ("/" ++ p) "https://" = false →
       newRequestURL basePath p = newRequestURL basePath ("/" ++ p)) ∧
    (∀ basePath pp q,
       basePath ≠ "" → hasPrefix pp "/" = true → (∀ c ∈ pp.toList, c ≠ '?') →
       trimSpace (pp ++ "?" ++ q) ≠ "" →
       hasPrefix (pp ++ "?" ++ q) "http://" = false →
       hasPrefix (pp ++ "?" ++ q) "https://" = false →
       newRequestURL basePath (pp ++ "?" ++ q) =
         .rel (if hasPrefix pp basePath then pp else trimSlashSuffix basePath ++ pp) q) ∧
    (∀ basePath pp,
       basePath ≠ "" → hasPrefix pp "/" = true → (∀ c ∈ pp.toList, c ≠ '?') →
       trimSpace pp ≠ "" →
       hasPrefix pp "http://" = false → hasPrefix pp "https://" = false →
       newRequestURL basePath pp =
         .rel (if hasPrefix pp basePath then pp else trimSlashSuffix basePath ++ pp) "") := by
  refine ⟨by decide, by decide, ?_, ?_, ?_⟩
  · intro basePath p h0 h1 h2 h3 h4 h5 h6
    have hps : hasPrefix ("/" ++ p) "/" = true := by
      rw [hasPrefix_iff]
      show ("/").data <+: ("/" ++ p).data
      rw [String.data_append]
      exact List.prefix_append _ _
    simp only [newRequestURL, if_neg h1, if_neg h2, h3, h4, h5, h6, h0, hps,
      Bool.or_self, Bool.false_eq_true, ite_false, ite_true]
  · intro basePath pp q hb hpre hq htrim hh1 hh2
    have hslash : hasPrefix (pp ++ "?" ++ q) "/" = true := by
      have := hasPrefix_slash_append ("?" ++ q) hpre
      rwa [← String.append_assoc] at this
    have hne : pp ≠ "" := ne_empty_of_hasPrefix_slash hpre
    simp only [newRequestURL, if_neg htrim, hh1, hh2, Bool.or_self, Bool.false_eq_true,
      ite_false, hslash, ite_true, splitQuery_append pp q hq, if_neg hne]
    by_cases hc : hasPrefix pp basePath = true <;> simp [hc, hb]
  · intro basePath pp hb hpre hq htrim hh1 hh2
    simp only [newRequestURL, if_neg htrim, hh1, hh2, Bool.or_self, Bool.false_eq_true,
      ite_false, hpre, ite_true, splitQuery_no_query pp hq,
      if_neg (ne_empty_of_hasPrefix_slash hpre)]
    by_cases hc : hasPrefix pp basePath = true <;> simp [hc, hb]

/-- Witness for claim C1 at concrete inputs: relative path `/a?k=v` against
base path `/2.0` joins to `/2.0/a` with query `k=v` preserved. -/
theorem claim_C1_witness :
    newRequestURL "/2.0" ("/a" ++ "?" ++ "k=v") =
      .rel (if hasPrefix "/a" "/2.0" then "/a" else trimSlashSuffix "/2.0" ++ "/a") "k=v" :=
  claim_C1.2.2.2.1 "/2.0" "/a" "k=v" (by decide) (by decide)
    (by decide) (by decide) (by decide) (by decide)

/-- Claim C10. The anti-duplication guard in `NewRequest` and
`NewMultipartRequest` is a raw string-prefix test on the path, not a
path-segment comparison: whenever the caller's path starts (character-wise)
with the base URL's path, it is used verbatim and the base path is not
prepended — including at non-segment boundaries such as base `/2.0` with
caller path `/2.0abc/x`. -/
theorem claim_C10 :
    (∀ basePath pp,
       basePath ≠ "" → hasPrefix pp "/" = true → (∀ c ∈ pp.toList, c ≠ '?') →
       trimSpace pp ≠ "" →
       hasPrefix pp "http://" = false → hasPrefix pp "https://" = false →
       hasPrefix pp basePath = true →
       newRequestURL basePath pp = .rel pp "" ∧
       newMultipartRequestURL basePath pp = .rel pp "") ∧
    (newRequestURL "/2.0" "/2.0abc/x" = .rel "/2.0abc/x" "") ∧
    (newMultipartRequestURL "/2.0" "/2.0abc/x" = .rel "/2.0abc/x" "") := by
  refine ⟨?_, by decide, by decide⟩
  intro basePath pp hb hpre hq htrim hh1 hh2 hbase
  constructor
  · simp only [newRequestURL, if_neg htrim, hh1, hh2, Bool.or_self, Bool.false_eq_true,
      ite_false, hpre, ite_true, splitQuery_no_query pp hq,
      if_neg (ne_empty_of_hasPrefix_slash hpre)]
    simp [hbase, hb]
  · simp only [newMultipartRequestURL, if_neg htrim, hh1, hh2, Bool.or_self,
      Bool.false_eq_true, ite_false, hpre, ite_true, splitQuery_no_query pp hq,
      if_neg (ne_empty_of_hasPrefix_slash hpre)]
    simp [hbase, hb]

/-- Witness for claim C10: base path `/2.0`, caller path `/2.0repos` (prefix
match not at a segment boundary) is used verbatim by both builders. -/
theorem claim_C10_witness :
    newRequestURL "/2.0" "/2.0repos" = .rel "/2.0repos" "" ∧
    newMultipartRequestURL "/2.0" "/2.0repos" = .rel "/2.0repos" "" :=
  claim_C10.1 "/2.0" "/2.0repos" (by decide) (by decide) (by decide)
    (by decide) (by decide) (by decide) (by decide)

/-! ## Retry policy and backoff (client.go lines 171-176, 530-580) -/

/-- `RetryPolicy` (client.go lines 172-176). Durations are in nanoseconds
(Go `time.Duration` is a signed 64-bit nanosecond count). -/
structure RetryPolicy where
  maxAttempts : Int
  initialBackoff : Int
  maxBackoff : Int
  deriving DecidableEq, Repr

/-- Signed 64-bit wrap-around, the overflow behaviour of Go's `int`/`int64`/
`time.Duration` arithmetic. -/
def wrap64 (x : Int) : Int :=
  (x + 2 ^ 63) % 2 ^ 64 - 2 ^ 63

/-- `Client.shouldRetry` (client.go lines 537-539): keep retrying while
`attempts + 1 < MaxAttempts`. -/
def shouldRetry (p : RetryPolicy) (attempts : Int) : Bool :=
  attempts + 1 < p.maxAttempts

/-- `shouldRetryStatus` (client.go lines 530-535): 429 and 5xx are
retryable. -/
def shouldRetryStatus (code : Int) : Bool :=
  code == 429 || (500 ≤ code && code ≤ 599)

/-- The delay computed by `Client.backoff` (client.go lines 546-560): start
from the initial backoff, double once per attempt after the first (the Go
shift `1 << (attempts-1)` and the multiplication wrap around int64), cap at
the maximum backoff, and let an integer `Retry-After` header (seconds,
converted to nanoseconds with wrap-around) override the result.
`retryAfter = some s` stands for a response whose `Retry-After` header is
present and parses with `strconv.Atoi` to `s`. -/
def backoffDelay (p : RetryPolicy) (attempts : Int) (retryAfter : Option Int) : Int :=
  let delay := p.initialBackoff
  let delay := if attempts > 1 then wrap64 (delay * wrap64 (2 ^ (attempts - 1).toNat)) else delay
  let delay := if delay > p.maxBackoff then p.maxBackoff else delay
  match retryAfter with
  | some secs => wrap64 (secs * 1000000000)
  | none => delay

/-- Outcome of one `Client.backoff` call: whether the retry loop should
continue, and the error surfaced from the cancelled context, if any. -/
structure BackoffOut where
  cont : Bool
  err : Option Unit
  deriving DecidableEq, Repr

/-- The control behaviour of `Client.backoff` (client.go lines 541-580):
`attempts >= MaxAttempts` stops without error; otherwise a cancelled context
(modelled by the `cancelled` flag: `ctx.Done()` is ready before the backoff
timer fires) aborts with the context's error, and an uncancelled context
waits out the delay and continues. -/
def backoffStep (p : RetryPolicy) (attempts : Int) (cancelled : Bool) : BackoffOut :=
  if attempts ≥ p.maxAttempts then ⟨false, none⟩
  else if cancelled then ⟨false, some ()⟩
  else ⟨true, none⟩

theorem wrap64_eq {x : Int} (h1 : -2 ^ 63 ≤ x) (h2 : x < 2 ^ 63) : wrap64 x = x := by
  unfold wrap64
  have h3 : 0 ≤ x + 2 ^ 63 := by omega
  have h4 : x + 2 ^ 63 < 2 ^ 64 := by omega
  rw [Int.emod_eq_of_lt h3 h4]
  omega

theorem ite_gt_eq_min (d m : Int) : (if d > m then m else d) = min d m := by
  rw [min_def]
  split <;> omega

/-- Counterexample to claim C3 as stated: with policy `MaxAttempts = 65`,
`InitialBackoff = 200ms`, `MaxBackoff = 2s`, the 64th retry attempt computes
a delay of 0 (the Go shift `1 << 63` and the subsequent multiplication wrap
around int64), not the claimed doubled-then-capped value of 2s. -/
theorem claim_C3_counterexample :
    backoffDelay ⟨65, 200000000, 2000000000⟩ 64 none ≠
      min ((200000000 : Int) * 2 ^ 63) 2000000000 := by decide

/-- Claim C3, amended: for every retry attempt `n ≥ 1` whose doubled delay
does not overflow a signed 64-bit duration, the backoff delay equals the
initial backoff doubled once per subsequent attempt, capped at the maximum
backoff; and an integer-seconds `Retry-After` header (whose nanosecond value
also fits in 64 bits) overrides the computed delay. -/
theorem claim_C3 (p : RetryPolicy) (n s : Int)
    (hn : 1 ≤ n) (hinit : 0 ≤ p.initialBackoff)
    (hfit : p.initialBackoff * 2 ^ (n - 1).toNat < 2 ^ 63)
    (hs : 0 ≤ s) (hsfit : s * 1000000000 < 2 ^ 63) :
    backoffDelay p n none = min (p.initialBackoff * 2 ^ (n - 1).toNat) p.maxBackoff ∧
    backoffDelay p n (some s) = s * 1000000000 := by
  constructor
  · show (let delay := p.initialBackoff
      let delay := if n > 1 then wrap64 (delay * wrap64 (2 ^ (n - 1).toNat)) else delay
      let delay := if delay > p.maxBackoff then p.maxBackoff else delay
      delay) = _
    by_cases h1 : n > 1
    · simp only [if_pos h1]
      have hd : wrap64 (p.initialBackoff * wrap64 (2 ^ (n - 1).toNat)) =
          p.initialBackoff * 2 ^ (n - 1).toNat := by
        rcases eq_or_lt_of_le hinit with h0 | h0
        · rw [← h0]
          simp [wrap64]
        · have hsh : (2 : Int) ^ (n - 1).toNat < 2 ^ 63 := by
            calc (2 : Int) ^ (n - 1).toNat = 1 * 2 ^ (n - 1).toNat := by ring
            _ ≤ p.initialBackoff * 2 ^ (n - 1).toNat := by
                apply mul_le_mul_of_nonneg_right (by omega) (by positivity)
            _ < 2 ^ 63 := hfit
          have hshpos : (0 : Int) ≤ 2 ^ (n - 1).toNat := by positivity
          rw [wrap64_eq (le_trans (by norm_num) hshpos) hsh]
          exact wrap64_eq (le_trans (by norm_num : (-2 ^ 63 : Int) ≤ 0) (by positivity)) hfit
      rw [hd, ite_gt_eq_min]
    · have hn1 : n = 1 := by omega
      subst hn1
      simp only [if_neg h1]
      rw [ite_gt_eq_min]
      norm_num
  · show wrap64 (s * 1000000000) = s * 1000000000
    exact wrap64_eq (le_trans (by norm_num : (-2 ^ 63 : Int) ≤ 0) (by positivity)) hsfit

/-- Witness for the amended claim C3 with the default policy (200ms initial,
2s cap) at attempt 2 and a `Retry-After: 7` header. -/
theorem claim_C3_witness :
    backoffDelay ⟨3, 200000000, 2000000000⟩ 2 none =
      min ((200000000 : Int) * 2 ^ ((2 : Int) - 1).toNat) 2000000000 ∧
    backoffDelay ⟨3, 200000000, 2000000000⟩ 2 (some 7) = 7 * 1000000000 :=
  claim_C3 ⟨3, 200000000, 2000000000⟩ 2 7 (by decide) (by decide)
    (by decide) (by decide) (by decide)

/-! ## Error decoder (client.go lines 468-512) -/

/-- Go `strings.ToLower`, modelled character-wise (ASCII case folding). -/
def toLowerStr (s : String) : String :=
  String.mk (s.toList.map Char.toLower)

/-- `sub` is a prefix of some suffix of `l`. -/
def containsSub (sub : List Char) : List Char → Bool
  | [] => sub.isPrefixOf []
  | c :: rest => sub.isPrefixOf (c :: rest) || containsSub sub rest

/-- Go `strings.Contains`: `sub` occurs as a substring of `s`. -/
def strContains (s sub : String) : Bool :=
  containsSub sub.toList s.toList

/-- One entry of the structured API error envelope (`apiErrEntry`,
client.go lines 469-472). -/
structure ApiErrEntry where
  message : String
  exceptionName : String
  deriving DecidableEq, Repr

/-- `isCaptchaException` (client.go lines 510-512). -/
def isCaptchaException (exceptionName : String) : Bool :=
  strContains (toLowerStr exceptionName) "captcharequired"

/-- The message built by `decodeError` (client.go lines 468-507). `errors`
stands for the `payload.Errors` list produced by `json.Unmarshal` on the
response body (`[]` when the body is empty or not a recognizable structured
error), `data` for the raw body bytes and `status` for `resp.Status`. The
selection loop with `break` is the first captcha-classified entry
(`List.find?`), defaulting to the first entry. -/
def decodeErrorMsg (status data : String) (errors : List ApiErrEntry) : String :=
  match errors with
  | [] => if data = "" then status else status ++ ": " ++ trimSpace data
  | first :: rest =>
    let bestErr :=
      match (first :: rest).find? (fun e => isCaptchaException e.exceptionName) with
      | some e => e
      | none => first
    let msg := bestErr.message
    let msg :=
      if isCaptchaException bestErr.exceptionName && !strContains (toLowerStr msg) "captcha" then
        "CAPTCHA verification required: " ++ msg
      else msg
    status ++ ": " ++ msg

theorem find?_append_first {α} (p : α → Bool) (l1 : List α) (e : α) (l2 : List α)
    (h1 : ∀ x ∈ l1, p x = false) (he : p e = true) :
    (l1 ++ e :: l2).find? p = some e := by
  induction l1 with
  | nil => simp [List.find?_cons, he]
  | cons a t ih =>
    have ha : p a = false := h1 a (by simp)
    simp only [List.cons_append, List.find?_cons, ha]
    exact ih (fun x hx => h1 x (by simp [hx]))

/-- Claim C7. The error decoder: with a non-empty structured entry list it
builds the message from the first entry unless some entry is
captcha-classified, in which case the first such entry is used; the chosen
message gets a clarifying prefix when it does not already mention CAPTCHA
(case-insensitively); an unparsable non-empty body yields status text plus
the trimmed raw body; an empty body yields the status text alone. -/
theorem claim_C7 :
    (∀ status data first rest,
       (∀ e ∈ first :: rest, isCaptchaException e.exceptionName = false) →
       decodeErrorMsg status data (first :: rest) = status ++ ": " ++ first.message) ∧
    (∀ status data l1 e l2,
       (∀ x ∈ l1, isCaptchaException x.exceptionName = false) →
       isCaptchaException e.exceptionName = true →
       decodeErrorMsg status data (l1 ++ e :: l2) =
         (if strContains (toLowerStr e.message) "captcha" then status ++ ": " ++ e.message
          else status ++ ": " ++ ("CAPTCHA verification required: " ++ e.message))) ∧
    (∀ status data, data ≠ "" → decodeErrorMsg status data [] = status ++ ": " ++ trimSpace data) ∧
    (∀ status, decodeErrorMsg status "" [] = status) := by
  refine ⟨?_, ?_, ?_, ?_⟩
  · intro status data first rest hall
    have hfind : (first :: rest).find? (fun e => isCaptchaException e.exceptionName) = none := by
      rw [List.find?_eq_none]
      intro x hx
      simp [hall x hx]
    have hfirst : isCaptchaException first.exceptionName = false := hall first (by simp)
    simp [decodeErrorMsg, hfind, hfirst]
  · intro status data l1 e l2 h1 he
    have hfind := find?_append_first (fun x => isCaptchaException x.exceptionName) l1 e l2 h1 he
    cases l1 with
    | nil =>
      simp only [List.nil_append] at hfind ⊢
      by_cases hc : strContains (toLowerStr e.message) "captcha" = true
      · simp [decodeErrorMsg, hfind, he, hc]
      · simp only [Bool.not_eq_true] at hc
        simp [decodeErrorMsg, hfind, he, hc]
    | cons a t =>
      simp only [List.cons_append] at hfind ⊢
      by_cases hc : strContains (toLowerStr e.message) "captcha" = true
      · simp [decodeErrorMsg, hfind, he, hc]
      · simp only [Bool.not_eq_true] at hc
        simp [decodeErrorMsg, hfind, he, hc]
  · intro status data hd
    simp [decodeErrorMsg, hd]
  · intro status
    simp [decodeErrorMsg]

/-- Witness for claim C7: a generic entry followed by a captcha-classified
entry produces the captcha entry's message with the clarifying prefix. -/
theorem claim_C7_witness :
    decodeErrorMsg "401 Unauthorized" "body"
      ([⟨"generic failure", "GenericException"⟩] ++
        ⟨"account locked", "CaptchaRequiredException"⟩ :: []) =
      (if strContains (toLowerStr "account locked") "captcha" then
        "401 Unauthorized" ++ ": " ++ "account locked"
       else "401 Unauthorized" ++ ": " ++
        ("CAPTCHA verification required: " ++ "account locked")) :=
  claim_C7.2.1 "401 Unauthorized" "body" [⟨"generic failure", "GenericException"⟩]
    ⟨"account locked", "CaptchaRequiredException"⟩ [] (by decide) (by decide)

/-! ## Rate-limit header reader (client.go lines 178-184, 632-689) -/

/-- Go `strconv.Atoi` / `strconv.ParseInt(s, 10, 64)`: an optional sign
followed by one or more digits, rejecting anything else and values outside
the signed 64-bit range. -/
def parseInt64? (s : String) : Option Int :=
  let signDigits : Int × List Char :=
    match s.toList with
    | '+' :: t => (1, t)
    | '-' :: t => (-1, t)
    | t => (1, t)
  if signDigits.2 = [] then none
  else if signDigits.2.all Char.isDigit then
    let n := signDigits.1 *
      signDigits.2.foldl (fun a c => a * 10 + ((c.toNat : Int) - 48)) 0
    if -2 ^ 63 ≤ n ∧ n < 2 ^ 63 then some n else none
  else none

/-- Go `http.Header.Get`: the first value stored under the key (the model
uses exact keys; canonicalization is identity on the keys involved). -/
def hGet (headers : List (String × String)) (k : String) : String :=
  match headers.find? (fun p => p.1 == k) with
  | some p => p.2
  | none => ""

/-- The `readHeader` closure of `Client.updateRateLimit` (client.go lines
635-645): missing or non-integer values read as 0. -/
def readHeader (headers : List (String × String)) (k : String) : Int :=
  match parseInt64? (hGet headers k) with
  | some n => n
  | none => 0

/-- The reset timestamp of the rate-limit state. `epoch e` is
`time.Unix(e, 0)` for a positive integer header; `httpDate s` stands for the
value of Go's `time.Parse(time.RFC1123, s)` on a non-integer header, kept
symbolic (the stdlib date parser is outside the repository; strings it
rejects are conflated into this constructor). `zero` is Go's zero
`time.Time`. -/
inductive ResetVal where
  | zero : ResetVal
  | epoch (e : Int) : ResetVal
  | httpDate (s : String) : ResetVal
  deriving DecidableEq, Repr

/-- The reset-parsing of `Client.updateRateLimit` (client.go lines 651-662):
a positive Unix epoch integer, otherwise an HTTP-date string. -/
def parseReset (s : String) : ResetVal :=
  if s = "" then .zero
  else
    match parseInt64? s with
    | some e => if e > 0 then .epoch e else .zero
    | none => .httpDate s

/-- `RateLimit` (client.go lines 179-184). -/
structure RateLimit where
  limit : Int
  remaining : Int
  reset : ResetVal
  source : String
  deriving DecidableEq, Repr

/-- `Client.updateRateLimit` (client.go lines 632-689) as a pure state
update: read the primary `X-RateLimit-*` headers; if both limit and
remaining are zero, fall back to the vendor-specific
`X-Attempt-RateLimit-*` then `X-RateLimit-Capacity`/`Available` families
(tagged "atlassian"); if still both zero, keep the previous state. -/
def updateRateLimit (prev : RateLimit) (headers : List (String × String)) : RateLimit :=
  let limit := readHeader headers "X-RateLimit-Limit"
  let remaining := readHeader headers "X-RateLimit-Remaining"
  let reset := parseReset (hGet headers "X-RateLimit-Reset")
  let source := if limit ≠ 0 ∨ remaining ≠ 0 then "bitbucket" else ""
  let lrs : Int × Int × String :=
    if limit = 0 ∧ remaining = 0 then
      let l := readHeader headers "X-Attempt-RateLimit-Limit"
      let r := readHeader headers "X-Attempt-RateLimit-Remaining"
      let lr : Int × Int :=
        if l = 0 ∧ r = 0 then
          (readHeader headers "X-RateLimit-Capacity", readHeader headers "X-RateLimit-Available")
        else (l, r)
      if lr.1 ≠ 0 ∨ lr.2 ≠ 0 then (lr.1, lr.2, "atlassian") else (lr.1, lr.2, source)
    else (limit, remaining, source)
  if lrs.1 = 0 ∧ lrs.2.1 = 0 then prev
  else { limit := lrs.1, remaining := lrs.2.1, reset := reset, source := lrs.2.2 }

/-- Claim C8. After a response, the rate-limit update leaves the stored
state exactly unchanged when neither header naming scheme yields a non-zero
limit or remaining value; otherwise it replaces the whole state with the
values of whichever scheme yielded data, tagged "bitbucket" for the primary
scheme and "atlassian" for the vendor-specific fallbacks, with the reset
timestamp parsed from a Unix epoch integer or an HTTP-date string
(`parseReset`). -/
theorem claim_C8 (prev : RateLimit) (hs : List (String × String)) :
    (readHeader hs "X-RateLimit-Limit" = 0 → readHeader hs "X-RateLimit-Remaining" = 0 →
     readHeader hs "X-Attempt-RateLimit-Limit" = 0 →
     readHeader hs "X-Attempt-RateLimit-Remaining" = 0 →
     readHeader hs "X-RateLimit-Capacity" = 0 → readHeader hs "X-RateLimit-Available" = 0 →
     updateRateLimit prev hs = prev) ∧
    (readHeader hs "X-RateLimit-Limit" ≠ 0 ∨ readHeader hs "X-RateLimit-Remaining" ≠ 0 →
     updateRateLimit prev hs =
       ⟨readHeader hs "X-RateLimit-Limit", readHeader hs "X-RateLimit-Remaining",
        parseReset (hGet hs "X-RateLimit-Reset"), "bitbucket"⟩) ∧
    (readHeader hs "X-RateLimit-Limit" = 0 → readHeader hs "X-RateLimit-Remaining" = 0 →
     readHeader hs "X-Attempt-RateLimit-Limit" ≠ 0 ∨
       readHeader hs "X-Attempt-RateLimit-Remaining" ≠ 0 →
     updateRateLimit prev hs =
       ⟨readHeader hs "X-Attempt-RateLimit-Limit", readHeader hs "X-Attempt-RateLimit-Remaining",
        parseReset (hGet hs "X-RateLimit-Reset"), "atlassian"⟩) ∧
    (readHeader hs "X-RateLimit-Limit" = 0 → readHeader hs "X-RateLimit-Remaining" = 0 →
     readHeader hs "X-Attempt-RateLimit-Limit" = 0 →
     readHeader hs "X-Attempt-RateLimit-Remaining" = 0 →
     readHeader hs "X-RateLimit-Capacity" ≠ 0 ∨ readHeader hs "X-RateLimit-Available" ≠ 0 →
     updateRateLimit prev hs =
       ⟨readHeader hs "X-RateLimit-Capacity", readHeader hs "X-RateLimit-Available",
        parseReset (hGet hs "X-RateLimit-Reset"), "atlassian"⟩) ∧
    (∀ s e, parseInt64? s = some e → 0 < e → parseReset s = .epoch e) ∧
    (∀ s, s ≠ "" → parseInt64? s = none → parseReset s = .httpDate s) := by
  refine ⟨?_, ?_, ?_, ?_, ?_, ?_⟩
  · intro h1 h2 h3 h4 h5 h6
    simp [updateRateLimit, h1, h2, h3, h4, h5, h6]
  · intro h
    by_cases ha : readHeader hs "X-RateLimit-Limit" = 0 <;>
      by_cases hb : readHeader hs "X-RateLimit-Remaining" = 0
    · exact absurd h (by simp [ha, hb])
    all_goals simp_all [updateRateLimit]
  · intro h1 h2 h
    by_cases ha : readHeader hs "X-Attempt-RateLimit-Limit" = 0 <;>
      by_cases hb : readHeader hs "X-Attempt-RateLimit-Remaining" = 0
    all_goals simp_all [updateRateLimit]
  · intro h1 h2 h3 h4 h
    by_cases ha : readHeader hs "X-RateLimit-Capacity" = 0 <;>
      by_cases hb : readHeader hs "X-RateLimit-Available" = 0
    all_goals simp_all [updateRateLimit]
  · intro s e hp he
    have hne : s ≠ "" := by
      intro h0
      rw [h0] at hp
      simp [parseInt64?] at hp
    simp [parseReset, hne, hp, he]
  · intro s hne hp
    simp [parseReset, hne, hp]

/-- Witness for claim C8: primary-scheme headers with limit 100, remaining
5 and an epoch reset replace the whole state, tagged "bitbucket". -/
theorem claim_C8_witness :
    updateRateLimit ⟨0, 0, .zero, ""⟩
      [("X-RateLimit-Limit", "100"), ("X-RateLimit-Remaining", "5"),
       ("X-RateLimit-Reset", "1700000000")] =
      ⟨readHeader [("X-RateLimit-Limit", "100"), ("X-RateLimit-Remaining", "5"),
         ("X-RateLimit-Reset", "1700000000")] "X-RateLimit-Limit",
       readHeader [("X-RateLimit-Limit", "100"), ("X-RateLimit-Remaining", "5"),
         ("X-RateLimit-Reset", "1700000000")] "X-RateLimit-Remaining",
       parseReset (hGet [("X-RateLimit-Limit", "100"), ("X-RateLimit-Remaining", "5"),
         ("X-RateLimit-Reset", "1700000000")] "X-RateLimit-Reset"), "bitbucket"⟩ :=
  (claim_C8 ⟨0, 0, .zero, ""⟩
      [("X-RateLimit-Limit", "100"), ("X-RateLimit-Remaining", "5"),
       ("X-RateLimit-Reset", "1700000000")]).2.1 (by decide)

/-! ## Response cache (client.go lines 186-190, 582-623) and the
`DoWithHeaders` retry loop (client.go lines 339-466).

The loop is modelled as a function of a finite script of network outcomes
(one per executed HTTP call; an exhausted script ends the run with a
distinguished outcome). JSON decoding of a 2xx body into the caller's value
is stdlib behaviour and is abstracted to delivering the body bytes; the
adaptive throttle (`applyAdaptiveThrottle`) only sleeps and is omitted as it
touches no state. Context cancellation is modelled per backoff call by a
`cancel` flag (see `backoffStep`). -/

/-- `cacheEntry` (client.go lines 186-190); the `storedAt` wall-clock field
is not modelled. -/
structure CacheEntry where
  etag : String
  body : String
  deriving DecidableEq, Repr

/-- `Client.cacheKey` (client.go lines 582-584). -/
def cacheKey (method url : String) : String := method ++ " " ++ url

/-- Go map lookup `c.cache[key]`, on the association-list model of the map
(the most recent entry for a key shadows older ones, matching map
assignment). -/
def cacheFind (cache : List (String × CacheEntry)) (key : String) : Option CacheEntry :=
  match cache.find? (fun p => p.1 == key) with
  | some p => some p.2
  | none => none

/-- `Client.cachedETag` (client.go lines 586-593). -/
def cachedETag (cache : List (String × CacheEntry)) (key : String) : String :=
  match cacheFind cache key with
  | some entry => entry.etag
  | none => ""

/-- `Client.storeCache` (client.go lines 595-602): ignore entries without an
ETag or with an empty body, otherwise write through. -/
def storeCache (cache : List (String × CacheEntry)) (key body etag : String) :
    List (String × CacheEntry) :=
  if etag = "" ∨ body = "" then cache
  else (key, ⟨etag, body⟩) :: cache

/-- The caller's decode target `v` of `Do`/`DoWithHeaders`: absent
(`v == nil`), an `io.Writer`, or a JSON-decoded value. -/
inductive Target where
  | none : Target
  | writer : Target
  | json : Target
  deriving DecidableEq, Repr

/-- Result of `Client.applyCachedResponse`: the body delivered to the
caller's target, or the "cached response missing" error. -/
inductive CacheReadResult where
  | ok (delivered : Option String) : CacheReadResult
  | missing : CacheReadResult
  deriving DecidableEq, Repr

/-- `Client.applyCachedResponse` (client.go lines 604-623): a nil target
returns success at once; otherwise a missing entry is an error, a writer
target receives the cached body, and a JSON target decodes a non-empty
cached body (delivery of the bytes abstracts `json.Unmarshal`). -/
def applyCachedResponse (cache : List (String × CacheEntry)) (key : String) (t : Target) :
    CacheReadResult :=
  if t = Target.none then .ok Option.none
  else
    match cacheFind cache key with
    | Option.none => .missing
    | some entry =>
      if t = Target.writer then .ok (some entry.body)
      else if entry.body = "" then .ok Option.none
      else .ok (some entry.body)

/-- An HTTP response as seen by the loop. `errEntries` is the result of
`json.Unmarshal` of `body` into the error envelope of `decodeError` (empty
when the body is empty or not a structured error). -/
structure Response where
  status : Int
  statusText : String
  headers : List (String × String)
  body : String
  errEntries : List ApiErrEntry
  deriving DecidableEq, Repr

/-- `resp.Header.Get("ETag")`. -/
def etagOf (r : Response) : String := hGet r.headers "ETag"

/-- One network call's outcome: a transport error (`c.httpClient.Do`
returned `err != nil`), or a response. -/
inductive NetResult where
  | err : NetResult
  | ok (resp : Response) : NetResult
  deriving DecidableEq, Repr

/-- The outcome `DoWithHeaders` hands its caller: success with the body
bytes delivered to the target (none when nothing was written/decoded), the
"cached response missing" error, a decoded API error message, a surfaced
transport error, the context's cancellation error, or an exhausted
script. -/
inductive DoOutcome where
  | ok (delivered : Option String) : DoOutcome
  | cacheMiss (url : String) : DoOutcome
  | apiError (msg : String) : DoOutcome
  | netErr : DoOutcome
  | cancelled : DoOutcome
  | scriptEnd : DoOutcome
  deriving DecidableEq, Repr

/-- Client configuration relevant to the loop. -/
structure Config where
  enableCache : Bool
  retry : RetryPolicy
  deriving DecidableEq, Repr

/-- The client's mutable state touched by the loop. -/
structure DoState where
  cache : List (String × CacheEntry)
  rate : RateLimit
  deriving DecidableEq, Repr

/-- Result of a `DoWithHeaders` run: the outcome, one record per network
call made (the `If-None-Match` value attached, if any), and the final
client state. -/
structure RunResult where
  outcome : DoOutcome
  sent : List (Option String)
  final : DoState
  deriving DecidableEq, Repr

/-- `Client.DoWithHeaders` (client.go lines 339-466) over a script of
network outcomes. Per attempt: attach the cached ETag as `If-None-Match`
for GETs when caching is on; on a transport error, retry per policy; on a
response, update the rate-limit state, serve 304s from the cache, retry 429
and 5xx per policy, decode other non-2xx statuses into an error, and on 2xx
deliver the body to the target, write-through caching GET responses that
carry an ETag (`v == nil` reaches `storeCache` with a nil body, which
stores nothing). `cancel n` tells whether the context is cancelled during
the backoff call with `attempts = n`. -/
def doRun (cfg : Config) (method url : String) (t : Target) (cancel : Int → Bool) :
    DoState → Int → List NetResult → RunResult
  | st, _, [] => ⟨.scriptEnd, [], st⟩
  | st, attempts, r :: rest =>
    let key := cacheKey method url
    let inm : Option String :=
      if cfg.enableCache && method == "GET" then
        let etag := cachedETag st.cache key
        if etag = "" then Option.none else some etag
      else Option.none
    match r with
    | .err =>
      if !shouldRetry cfg.retry attempts then ⟨.netErr, [inm], st⟩
      else
        let b := backoffStep cfg.retry (attempts + 1) (cancel (attempts + 1))
        if b.err.isSome then ⟨.cancelled, [inm], st⟩
        else if b.cont then
          let res := doRun cfg method url t cancel st (attempts + 1) rest
          ⟨res.outcome, inm :: res.sent, res.final⟩
        else ⟨.netErr, [inm], st⟩
    | .ok resp =>
      let st1 : DoState := { st with rate := updateRateLimit st.rate resp.headers }
      if resp.status = 304 ∧ cfg.enableCache = true ∧ method = "GET" then
        match applyCachedResponse st1.cache key t with
        | .missing => ⟨.cacheMiss url, [inm], st1⟩
        | .ok d => ⟨.ok d, [inm], st1⟩
      else if shouldRetryStatus resp.status then
        if !shouldRetry cfg.retry attempts then
          ⟨.apiError (decodeErrorMsg resp.statusText resp.body resp.errEntries), [inm], st1⟩
        else
          let b := backoffStep cfg.retry (attempts + 1) (cancel (attempts + 1))
          if b.err.isSome then ⟨.cancelled, [inm], st1⟩
          else if b.cont then
            let res := doRun cfg method url t cancel st1 (attempts + 1) rest
            ⟨res.outcome, inm :: res.sent, res.final⟩
          else ⟨.apiError (decodeErrorMsg resp.statusText resp.body resp.errEntries), [inm], st1⟩
      else if resp.status < 200 ∨ resp.status ≥ 300 then
        ⟨.apiError (decodeErrorMsg resp.statusText resp.body resp.errEntries), [inm], st1⟩
      else
        match t with
        | .none =>
          let cache2 :=
            if cfg.enableCache && method == "GET" then storeCache st1.cache key "" (etagOf resp)
            else st1.cache
          ⟨.ok Option.none, [inm], { st1 with cache := cache2 }⟩
        | .writer => ⟨.ok (some resp.body), [inm], st1⟩
        | .json =>
          let cache2 :=
            if cfg.enableCache = true ∧ method = "GET" ∧ etagOf resp ≠ "" then
              storeCache st1.cache key resp.body (etagOf resp)
            else st1.cache
          if resp.body = "" then ⟨.ok Option.none, [inm], { st1 with cache := cache2 }⟩
          else ⟨.ok (some resp.body), [inm], { st1 with cache := cache2 }⟩

/-- The JSON body with the single field `message` set to `ok` (written out
character-wise). -/
def okBody : String :=
  String.mk ['{', '"', 'm', 'e', 's', 's', 'a', 'g', 'e', '"', ':', '"', 'o', 'k', '"', '}']

/-- A bare 500 response. -/
def resp500 : Response := ⟨500, "500 Internal Server Error", [], "", []⟩

/-- A 200 response whose body is `okBody`. -/
def respOk200 : Response := ⟨200, "200 OK", [], okBody, []⟩

/-- The zero rate-limit state of a fresh client. -/
def rate0 : RateLimit := ⟨0, 0, .zero, ""⟩

/-- Claim C2. The loop stops retrying exactly when `attempts + 1` reaches
`MaxAttempts` (a retryable status is then decoded and returned with no
further network call); and the concrete scenario: a 500 then a 200 carrying
`okBody`, with `MaxAttempts = 3`, makes exactly 2 network calls and
delivers `okBody` to the caller's JSON target. -/
theorem claim_C2 :
    (∀ p a, shouldRetry p a = false ↔ p.maxAttempts ≤ a + 1) ∧
    (∀ cfg method url t cancel st a resp rest,
       shouldRetryStatus resp.status = true → shouldRetry cfg.retry a = false →
       (doRun cfg method url t cancel st a (.ok resp :: rest)).outcome =
         .apiError (decodeErrorMsg resp.statusText resp.body resp.errEntries) ∧
       (doRun cfg method url t cancel st a (.ok resp :: rest)).sent.length = 1) ∧
    (doRun ⟨false, ⟨3, 200000000, 2000000000⟩⟩ "GET" "https://api.bitbucket.org/2.0/x" .json
        (fun _ => false) ⟨[], rate0⟩ 0 [.ok resp500, .ok respOk200] =
      ⟨.ok (some okBody), [Option.none, Option.none], ⟨[], rate0⟩⟩) := by
  refine ⟨?_, ?_, ?_⟩
  · intro p a
    simp only [shouldRetry, decide_eq_false_iff_not, not_lt]
  · intro cfg method url t cancel st a resp rest hs hr
    have h304 : ¬(resp.status = 304 ∧ cfg.enableCache = true ∧ method = "GET") := by
      rintro ⟨h1, h2⟩
      rw [h1] at hs
      norm_num [shouldRetryStatus] at hs
    refine ⟨?_, ?_⟩ <;> simp [doRun, h304, hs, hr]
  · decide

/-- Witness for claim C2 at a concrete stop point: with `MaxAttempts = 3`
and `attempts = 2`, a retryable 500 is decoded and returned after a single
network call. -/
theorem claim_C2_witness :
    (doRun ⟨false, ⟨3, 200000000, 2000000000⟩⟩ "GET" "https://api.bitbucket.org/2.0/x" .json
        (fun _ => false) ⟨[], rate0⟩ 2 [.ok resp500, .ok respOk200]).outcome =
      .apiError (decodeErrorMsg resp500.statusText resp500.body resp500.errEntries) ∧
    (doRun ⟨false, ⟨3, 200000000, 2000000000⟩⟩ "GET" "https://api.bitbucket.org/2.0/x" .json
        (fun _ => false) ⟨[], rate0⟩ 2 [.ok resp500, .ok respOk200]).sent.length = 1 :=
  (claim_C2.2.1 ⟨false, ⟨3, 200000000, 2000000000⟩⟩ "GET" "https://api.bitbucket.org/2.0/x"
    .json (fun _ => false) ⟨[], rate0⟩ 2 resp500 [.ok respOk200] (by decide) (by decide))

/-- A bare 304 response. -/
def resp304 : Response := ⟨304, "304 Not Modified", [], "", []⟩

/-- A 200 response carrying an ETag header and a body. -/
def resp200E (etag body : String) : Response := ⟨200, "200 OK", [("ETag", etag)], body, []⟩

/-- Claim C9. If the context is cancelled while the loop waits out a retry
backoff (the backoff select observes `ctx.Done()`), the wait aborts, no
further attempt is made (exactly one network call despite a longer script),
and the loop returns the context's cancellation error rather than a generic
one. Timing ("promptly") is outside the model. -/
theorem claim_C9 (cfg : Config) (method url : String) (t : Target) (cancel : Int → Bool)
    (st : DoState) (a : Int) (r : NetResult) (rest : List NetResult)
    (hretry : r = .err ∨ ∃ resp, r = .ok resp ∧ shouldRetryStatus resp.status = true)
    (hcan : shouldRetry cfg.retry a = true)
    (hcancel : cancel (a + 1) = true) :
    (doRun cfg method url t cancel st a (r :: rest)).outcome = .cancelled ∧
    (doRun cfg method url t cancel st a (r :: rest)).sent.length = 1 := by
  have hb : backoffStep cfg.retry (a + 1) (cancel (a + 1)) = ⟨false, some ()⟩ := by
    have hlt : ¬(a + 1 ≥ cfg.retry.maxAttempts) := by
      simp only [shouldRetry, decide_eq_true_eq] at hcan
      omega
    simp [backoffStep, hlt, hcancel]
  rcases hretry with hE | ⟨resp, hOk, hs⟩
  · subst hE
    refine ⟨?_, ?_⟩ <;> simp [doRun, hcan, hb]
  · subst hOk
    have h304 : ¬(resp.status = 304 ∧ cfg.enableCache = true ∧ method = "GET") := by
      rintro ⟨h1, h2⟩
      rw [h1] at hs
      norm_num [shouldRetryStatus] at hs
    refine ⟨?_, ?_⟩ <;> simp [doRun, h304, hs, hcan, hb]

/-- Witness for claim C9: a context cancelled during the first backoff makes
the run return the cancellation error after exactly one network call, even
though the script has a 200 waiting. -/
theorem claim_C9_witness :
    (doRun ⟨false, ⟨3, 200000000, 2000000000⟩⟩ "GET" "https://api.bitbucket.org/2.0/x" .json
        (fun _ => true) ⟨[], rate0⟩ 0 [.ok resp500, .ok respOk200]).outcome = .cancelled ∧
    (doRun ⟨false, ⟨3, 200000000, 2000000000⟩⟩ "GET" "https://api.bitbucket.org/2.0/x" .json
        (fun _ => true) ⟨[], rate0⟩ 0 [.ok resp500, .ok respOk200]).sent.length = 1 :=
  claim_C9 ⟨false, ⟨3, 200000000, 2000000000⟩⟩ "GET" "https://api.bitbucket.org/2.0/x" .json
    (fun _ => true) ⟨[], rate0⟩ 0 (.ok resp500) [.ok respOk200]
    (Or.inr ⟨resp500, rfl, by decide⟩) (by decide) rfl

/-- Counterexample to claim C6 as stated: a cache-enabled GET answered 304
with no cache entry, but with a nil decode target (`v == nil`), returns
success — the cache-miss condition is not surfaced for this target. -/
theorem claim_C6_counterexample :
    (doRun ⟨true, ⟨3, 200000000, 2000000000⟩⟩ "GET" "https://api.bitbucket.org/2.0/x"
        Target.none (fun _ => false) ⟨[], rate0⟩ 0 [.ok resp304]).outcome ≠
      .cacheMiss "https://api.bitbucket.org/2.0/x" ∧
    (doRun ⟨true, ⟨3, 200000000, 2000000000⟩⟩ "GET" "https://api.bitbucket.org/2.0/x"
        Target.none (fun _ => false) ⟨[], rate0⟩ 0 [.ok resp304]).outcome =
      .ok Option.none := by decide

/-- Claim C6, amended: a cache-enabled GET that receives a 304 with no cache
entry for its (method, URL) key surfaces the "cached response missing" error
— for every non-nil decode target; a nil target (`v == nil`) instead returns
success without consulting the cache. -/
theorem claim_C6 (cfg : Config) (method url : String) (t : Target) (cancel : Int → Bool)
    (st : DoState) (a : Int) (resp : Response) (rest : List NetResult)
    (hcache : cfg.enableCache = true) (hm : method = "GET") (h304 : resp.status = 304)
    (ht : t ≠ Target.none)
    (hmiss : cacheFind st.cache (cacheKey method url) = Option.none) :
    (doRun cfg method url t cancel st a (.ok resp :: rest)).outcome = .cacheMiss url ∧
    (doRun cfg method url t cancel st a (.ok resp :: rest)).sent.length = 1 := by
  subst hm
  have happ : applyCachedResponse st.cache (cacheKey "GET" url) t = .missing := by
    simp [applyCachedResponse, ht, hmiss]
  refine ⟨?_, ?_⟩ <;>
    simp [doRun, hcache, h304, happ, cachedETag, hmiss]

/-- Witness for the amended claim C6: empty cache, 304 answer, JSON target:
the cache-miss error is surfaced after one network call. -/
theorem claim_C6_witness :
    (doRun ⟨true, ⟨3, 200000000, 2000000000⟩⟩ "GET" "https://api.bitbucket.org/2.0/x" .json
        (fun _ => false) ⟨[], rate0⟩ 0 [.ok resp304]).outcome =
      .cacheMiss "https://api.bitbucket.org/2.0/x" ∧
    (doRun ⟨true, ⟨3, 200000000, 2000000000⟩⟩ "GET" "https://api.bitbucket.org/2.0/x" .json
        (fun _ => false) ⟨[], rate0⟩ 0 [.ok resp304]).sent.length = 1 :=
  claim_C6 ⟨true, ⟨3, 200000000, 2000000000⟩⟩ "GET" "https://api.bitbucket.org/2.0/x" .json
    (fun _ => false) ⟨[], rate0⟩ 0 resp304 [] rfl rfl (by decide) (by decide) (by decide)

/-- Claim C5. ETag round-trip with caching enabled: a GET answered 200 with
ETag `E1` and non-empty body `B1` (JSON target), followed by the identical
GET answered 304, attaches `If-None-Match: E1` on the second call, delivers
`B1` to the caller both times (JSON or stream target on the second call),
makes exactly one network call per run (2 in total), and the second body
comes from the cache entry (the 304 response carries no body). -/
theorem claim_C5 (cfg : Config) (url : String) (st0 : DoState) (E1 B1 : String)
    (t2 : Target) (cancel : Int → Bool)
    (hcache : cfg.enableCache = true) (hE : E1 ≠ "") (hB : B1 ≠ "") (ht2 : t2 ≠ Target.none)
    (r1 r2 : RunResult)
    (hr1 : r1 = doRun cfg "GET" url .json cancel st0 0 [.ok (resp200E E1 B1)])
    (hr2 : r2 = doRun cfg "GET" url t2 cancel r1.final 0 [.ok resp304]) :
    r1.outcome = .ok (some B1) ∧ r1.sent.length = 1 ∧
    r2.sent = [some E1] ∧ r2.outcome = .ok (some B1) ∧
    cacheFind r2.final.cache (cacheKey "GET" url) = some ⟨E1, B1⟩ := by
  have hetag : etagOf (resp200E E1 B1) = E1 := by simp [etagOf, resp200E, hGet]
  have hA : ¬((resp200E E1 B1).status = 304 ∧ cfg.enableCache = true ∧ "GET" = "GET") := by
    simp [resp200E]
  have hS : shouldRetryStatus (resp200E E1 B1).status = false := by
    norm_num [shouldRetryStatus, resp200E]
  have hR : ¬((resp200E E1 B1).status < 200 ∨ (resp200E E1 B1).status ≥ 300) := by
    norm_num [resp200E]
  have h1 : r1 = ⟨.ok (some B1),
      [if cfg.enableCache && "GET" == "GET" then
         (if cachedETag st0.cache (cacheKey "GET" url) = "" then Option.none
          else some (cachedETag st0.cache (cacheKey "GET" url)))
       else Option.none],
      ⟨(cacheKey "GET" url, ⟨E1, B1⟩) :: st0.cache,
       updateRateLimit st0.rate (resp200E E1 B1).headers⟩⟩ := by
    rw [hr1]
    simp only [doRun]
    have hS2 : shouldRetryStatus 200 = false := by norm_num [shouldRetryStatus]
    simp [hA, hS2, hR, storeCache, hE, hB, hcache, resp200E, etagOf, hGet]
  have hfind : cacheFind ((cacheKey "GET" url, (⟨E1, B1⟩ : CacheEntry)) :: st0.cache)
      (cacheKey "GET" url) = some ⟨E1, B1⟩ := by
    simp [cacheFind, List.find?_cons]
  have hcet : cachedETag ((cacheKey "GET" url, (⟨E1, B1⟩ : CacheEntry)) :: st0.cache)
      (cacheKey "GET" url) = E1 := by
    simp [cachedETag, hfind]
  have h304A : (resp304.status = 304 ∧ cfg.enableCache = true ∧ "GET" = "GET") := by
    simp [resp304, hcache]
  have happ : applyCachedResponse ((cacheKey "GET" url, (⟨E1, B1⟩ : CacheEntry)) :: st0.cache)
      (cacheKey "GET" url) t2 = .ok (some B1) := by
    cases t2 with
    | none => exact absurd rfl ht2
    | writer => simp [applyCachedResponse, hfind]
    | json => simp [applyCachedResponse, hfind, hB]
  have h2 : r2 = ⟨.ok (some B1), [some E1],
      ⟨(cacheKey "GET" url, ⟨E1, B1⟩) :: st0.cache,
       updateRateLimit (updateRateLimit st0.rate (resp200E E1 B1).headers) resp304.headers⟩⟩ := by
    rw [hr2, h1]
    simp only [doRun]
    simp [h304A, happ, hcet, hE, hcache]
  rw [h1, h2]
  refine ⟨rfl, rfl, rfl, rfl, ?_⟩
  simpa using hfind

/-- Witness for claim C5 at concrete inputs: ETag `abc`, body `data`, JSON
target on both calls. -/
theorem claim_C5_witness :
    (doRun ⟨true, ⟨3, 200000000, 2000000000⟩⟩ "GET" "https://api.bitbucket.org/2.0/x" .json
        (fun _ => false) ⟨[], rate0⟩ 0 [.ok (resp200E "abc" "data")]).outcome =
      .ok (some "data") ∧
    (doRun ⟨true, ⟨3, 200000000, 2000000000⟩⟩ "GET" "https://api.bitbucket.org/2.0/x" .json
        (fun _ => false)
        (doRun ⟨true, ⟨3, 200000000, 2000000000⟩⟩ "GET" "https://api.bitbucket.org/2.0/x" .json
          (fun _ => false) ⟨[], rate0⟩ 0 [.ok (resp200E "abc" "data")]).final
        0 [.ok resp304]).sent = [some "abc"] ∧
    (doRun ⟨true, ⟨3, 200000000, 2000000000⟩⟩ "GET" "https://api.bitbucket.org/2.0/x" .json
        (fun _ => false)
        (doRun ⟨true, ⟨3, 200000000, 2000000000⟩⟩ "GET" "https://api.bitbucket.org/2.0/x" .json
          (fun _ => false) ⟨[], rate0⟩ 0 [.ok (resp200E "abc" "data")]).final
        0 [.ok resp304]).outcome = .ok (some "data") := by
  have h := claim_C5 ⟨true, ⟨3, 200000000, 2000000000⟩⟩ "https://api.bitbucket.org/2.0/x"
    ⟨[], rate0⟩ "abc" "data" .json (fun _ => false) rfl (by decide) (by decide) (by decide)
    _ _ rfl rfl
  exact ⟨h.1, h.2.2.1, h.2.2.2.1⟩

/-- Master lemma for the cache effect of a `DoWithHeaders` run: the final
cache equals the initial one, or a cache-enabled GET run prepended exactly
one entry keyed by the request's cache key, built from a scripted 2xx
response carrying a non-empty ETag and a non-empty body. -/
theorem doRun_cache_spec (cfg : Config) (method url : String) (t : Target)
    (cancel : Int → Bool) :
    ∀ (script : List NetResult) (st : DoState) (a : Int),
      (doRun cfg method url t cancel st a script).final.cache = st.cache ∨
      (cfg.enableCache = true ∧ method = "GET" ∧
       ∃ resp, NetResult.ok resp ∈ script ∧ 200 ≤ resp.status ∧ resp.status < 300 ∧
         etagOf resp ≠ "" ∧ resp.body ≠ "" ∧
         (doRun cfg method url t cancel st a script).final.cache =
           (cacheKey method url, ⟨etagOf resp, resp.body⟩) :: st.cache) := by
  intro script
  induction script with
  | nil =>
    intro st a
    left
    simp [doRun]
  | cons r rest ih =>
    intro st a
    cases r with
    | err =>
      by_cases hr : shouldRetry cfg.retry a = true
      · by_cases hberr : (backoffStep cfg.retry (a + 1) (cancel (a + 1))).err.isSome = true
        · left
          simp [doRun, hr, hberr]
        · by_cases hbcont : (backoffStep cfg.retry (a + 1) (cancel (a + 1))).cont = true
          · rcases ih st (a + 1) with h | ⟨hc, hm, resp, hmem, hs1, hs2, hs3, hs4, heq⟩
            · left
              simpa [doRun, hr, hberr, hbcont] using h
            · right
              refine ⟨hc, hm, resp, List.mem_cons_of_mem _ hmem, hs1, hs2, hs3, hs4, ?_⟩
              simpa [doRun, hr, hberr, hbcont] using heq
          · left
            simp [doRun, hr, hberr, hbcont]
      · left
        simp [doRun, hr]
    | ok resp =>
      by_cases h304 : (resp.status = 304 ∧ cfg.enableCache = true ∧ method = "GET")
      · obtain ⟨h3a, h3b, h3c⟩ := h304
        subst h3c
        left
        cases happ : applyCachedResponse st.cache (cacheKey "GET" url) t with
        | missing => simp [doRun, h3a, h3b, happ]
        | ok d => simp [doRun, h3a, h3b, happ]
      · by_cases hS : shouldRetryStatus resp.status = true
        · by_cases hr : shouldRetry cfg.retry a = true
          · by_cases hberr : (backoffStep cfg.retry (a + 1) (cancel (a + 1))).err.isSome = true
            · left
              simp [doRun, h304, hS, hr, hberr]
            · by_cases hbcont : (backoffStep cfg.retry (a + 1) (cancel (a + 1))).cont = true
              · rcases ih ⟨st.cache, updateRateLimit st.rate resp.headers⟩ (a + 1) with
                  h | ⟨hc, hm, resp2, hmem, hs1, hs2, hs3, hs4, heq⟩
                · left
                  simpa [doRun, h304, hS, hr, hberr, hbcont] using h
                · right
                  refine ⟨hc, hm, resp2, List.mem_cons_of_mem _ hmem, hs1, hs2, hs3, hs4, ?_⟩
                  simpa [doRun, h304, hS, hr, hberr, hbcont] using heq
              · left
                simp [doRun, h304, hS, hr, hberr, hbcont]
          · left
            simp [doRun, h304, hS, hr]
        · by_cases hNon : (resp.status < 200 ∨ resp.status ≥ 300)
          · left
            simp [doRun, h304, hS, hNon]
          · have hbounds : 200 ≤ resp.status ∧ resp.status < 300 := by
              constructor <;> by_contra hcon <;> exact hNon (by omega)
            have hne : resp.status ≠ 304 := by omega
            cases t with
            | none =>
              left
              simp [doRun, hne, hS, hNon, storeCache]
            | writer =>
              left
              simp [doRun, hne, hS, hNon]
            | json =>
              by_cases hcond : (cfg.enableCache = true ∧ method = "GET" ∧ etagOf resp ≠ "")
              · by_cases hbody : resp.body = ""
                · left
                  simp [doRun, hne, hS, hNon, hcond, hbody, storeCache]
                · right
                  refine ⟨hcond.1, hcond.2.1, resp, by simp, hbounds.1, hbounds.2,
                    hcond.2.2, hbody, ?_⟩
                  simp [doRun, hne, hS, hNon, hcond, hbody, storeCache, hcond.2.2]
              · by_cases hbody : resp.body = ""
                · left
                  simp [doRun, hne, hS, hNon, hcond, hbody]
                · left
                  simp [doRun, hne, hS, hNon, hcond, hbody]

/-- Well-formedness of the response cache: every entry carries a non-empty
ETag and a non-empty body. -/
def cacheWF (cache : List (String × CacheEntry)) : Prop :=
  ∀ p ∈ cache, p.2.etag ≠ "" ∧ p.2.body ≠ ""

/-- Claim C4. Invariant of the response cache, preserved by every
`Do`/`DoWithHeaders` run: well-formedness (non-empty ETag and body in every
entry) is preserved; no entry is ever evicted; runs that are not
cache-enabled GETs leave the cache untouched; and every new entry is keyed
by the request's method-plus-URL key and was created from a scripted 2xx
response of a cache-enabled GET carrying that non-empty ETag and body. -/
theorem claim_C4 (cfg : Config) (method url : String) (t : Target) (cancel : Int → Bool)
    (st : DoState) (a : Int) (script : List NetResult) :
    (cacheWF st.cache → cacheWF (doRun cfg method url t cancel st a script).final.cache) ∧
    (∀ p, p ∈ st.cache → p ∈ (doRun cfg method url t cancel st a script).final.cache) ∧
    (cfg.enableCache = false ∨ method ≠ "GET" →
      (doRun cfg method url t cancel st a script).final.cache = st.cache) ∧
    (∀ p, p ∈ (doRun cfg method url t cancel st a script).final.cache →
      p ∈ st.cache ∨
      (p.1 = cacheKey method url ∧ p.2.etag ≠ "" ∧ p.2.body ≠ "" ∧
       cfg.enableCache = true ∧ method = "GET" ∧
       ∃ resp, NetResult.ok resp ∈ script ∧ 200 ≤ resp.status ∧ resp.status < 300 ∧
         etagOf resp = p.2.etag ∧ resp.body = p.2.body)) := by
  rcases doRun_cache_spec cfg method url t cancel script st a with
    h | ⟨hc, hm, resp, hmem, hs1, hs2, hs3, hs4, heq⟩
  · refine ⟨?_, ?_, ?_, ?_⟩
    · intro hwf
      rw [h]
      exact hwf
    · intro p hp
      rw [h]
      exact hp
    · intro hoff
      exact h
    · intro p hp
      rw [h] at hp
      exact Or.inl hp
  · refine ⟨?_, ?_, ?_, ?_⟩
    · intro hwf
      rw [heq]
      intro p hp
      rcases List.mem_cons.mp hp with hnew | hold
      · subst hnew
        exact ⟨hs3, hs4⟩
      · exact hwf p hold
    · intro p hp
      rw [heq]
      exact List.mem_cons_of_mem _ hp
    · intro hoff
      rcases hoff with h1 | h2
      · rw [hc] at h1
        cases h1
      · exact absurd hm h2
    · intro p hp
      rw [heq] at hp
      rcases List.mem_cons.mp hp with hnew | hold
      · subst hnew
        exact Or.inr ⟨rfl, hs3, hs4, hc, hm, resp, hmem, hs1, hs2, rfl, rfl⟩
      · exact Or.inl hold

/-- Witness for claim C4: a non-GET run with caching disabled leaves an
empty cache empty. -/
theorem claim_C4_witness :
    (doRun ⟨false, ⟨3, 200000000, 2000000000⟩⟩ "POST" "https://api.bitbucket.org/2.0/x" .json
      (fun _ => false) ⟨[], rate0⟩ 0 [.ok respOk200]).final.cache =
      ([] : List (String × CacheEntry)) :=
  (claim_C4 ⟨false, ⟨3, 200000000, 2000000000⟩⟩ "POST" "https://api.bitbucket.org/2.0/x" .json
    (fun _ => false) ⟨[], rate0⟩ 0 [.ok respOk200]).2.2.1 (Or.inl rfl)

end Httpx
